import Mathlib

/-!
Shallow embedding of `src/poi_search.py` (RouteBuilder): POI catalog search,
route composition with type diversification, greedy ordering, and route
statistics.  Coordinates, ratings and radii are rationals (every Python float
literal in the program is rational); distances are reals because the distance
primitive takes a square root.
-/

/-- Dataclass `POI` from `poi_search.py`. -/
structure POI where
  id : ℤ
  name : String
  latitude : ℚ
  longitude : ℚ
  poi_type : String
  tags : List String
  rating : ℚ
  visit_time : ℤ := 60
deriving DecidableEq, Repr

namespace RouteBuilder

/-- Python's `needle in haystack` substring test on strings. -/
def strIn (needle haystack : String) : Bool :=
  decide (needle.data <:+: haystack.data)

/-- Python's `str.lower()` (character-wise; the program's data is already
lowercase wherever case matters). -/
def pyLower (s : String) : String :=
  ⟨s.data.map Char.toLower⟩

def pySplitAux : List Char → List Char → List String
  | [], acc => if acc.isEmpty then [] else [⟨acc.reverse⟩]
  | c :: cs, acc =>
    if c.isWhitespace then
      (if acc.isEmpty then [] else [⟨acc.reverse⟩]) ++ pySplitAux cs []
    else pySplitAux cs (c :: acc)

/-- Python's `str.split()`: split on whitespace runs, dropping empty pieces. -/
def pySplit (s : String) : List String :=
  pySplitAux s.data []

/-- The synonym dictionary built in `RouteBuilder.__init__` (insertion order). -/
def synonyms : List (String × List String) :=
  [("церковь", ["церковь", "храм", "собор", "часовня"]),
   ("монастырь", ["монастырь", "обитель", "лавра"]),
   ("старый", ["старый", "древний", "старинный", "исторический"]),
   ("москва", ["москва", "московский", "в москве"])]

/-- Catalog from `RouteBuilder._create_sample_data`. -/
def create_sample_data : List POI :=
  [⟨1, "Храм Василия Блаженного", 557525/10000, 376231/10000, "church",
     ["храм", "собор", "старый", "православный", "москва"], 48/10, 90⟩,
   ⟨2, "Новодевичий монастырь", 557260/10000, 375563/10000, "monastery",
     ["монастырь", "женский", "старый", "исторический", "москва"], 47/10, 120⟩,
   ⟨3, "Успенский собор Московского Кремля", 557510/10000, 376171/10000, "church",
     ["собор", "кремль", "старый", "православный", "москва"], 49/10, 60⟩,
   ⟨4, "Церковь Вознесения в Коломенском", 556674/10000, 376709/10000, "church",
     ["церковь", "древний", "памятник", "коломенское", "москва"], 45/10, 45⟩,
   ⟨5, "Саввино-Сторожевский монастырь", 557286/10000, 368246/10000, "monastery",
     ["монастырь", "мужской", "звенигород", "подмосковье"], 46/10, 180⟩,
   ⟨6, "Храм Христа Спасителя", 557445/10000, 376054/10000, "church",
     ["храм", "собор", "кафедральный", "москва"], 47/10, 75⟩,
   ⟨7, "Донской монастырь", 557146/10000, 376027/10000, "monastery",
     ["монастырь", "некрополь", "старый", "москва"], 44/10, 90⟩]

/-- Per-word body of the loop in `_expand_query_words`: the word itself,
then for each synonym group containing it, the group minus the word. -/
def expand_one (syn : List (String × List String)) (word : String) : List String :=
  word :: (syn.map (fun kv =>
    if word ∈ kv.2 then kv.2.filter (fun s => s ≠ word) else [])).flatten

/-- Model of `RouteBuilder._expand_query_words`; the final `list(set(expanded))`
is modelled by `List.dedup` (order of the Python set is not significant). -/
def expand_query_words (syn : List (String × List String))
    (query_words : List String) : List String :=
  ((query_words.map (expand_one syn)).flatten).dedup

/-- The searchable text of a POI: `f"{poi.name.lower()} {' '.join(poi.tags).lower()}"`. -/
def poi_text (poi : POI) : String :=
  pyLower poi.name ++ " " ++ pyLower (" ".intercalate poi.tags)

/-- Token-matching points of the scoring loop in `search` (lines 73-79):
2 points for an original query word found in the searchable text, 1 for a
synonym. -/
def token_score (expanded_words query_words : List String) (poi : POI) : ℤ :=
  expanded_words.foldl (fun score word =>
    if strIn word (poi_text poi) then
      (if word ∈ query_words then score + 2 else score + 1)
    else score) 0

/-- Category bonus of `search` (lines 82-85). -/
def category_bonus (query : String) (poi : POI) : ℤ :=
  (if (["церковь", "храм", "собор"].any fun t => strIn t (pyLower query))
      ∧ poi.poi_type = "church" then 1 else 0)
  + (if strIn "монастырь" (pyLower query) ∧ poi.poi_type = "monastery" then 1 else 0)

/-- Distance primitive `RouteBuilder._distance`: planar approximation, degrees times 111 km. -/
noncomputable def _distance (coord1 coord2 : ℚ × ℚ) : ℝ :=
  Real.sqrt (((coord1.1 : ℝ) - (coord2.1 : ℝ))^2 + ((coord1.2 : ℝ) - (coord2.2 : ℝ))^2) * 111

/-- Score `distance_score = max(0, 1 - dist / radius_km) * 2`. -/
noncomputable def distance_score (dist : ℝ) (radius_km : ℚ) : ℝ :=
  max 0 (1 - dist / (radius_km : ℝ)) * 2

/-- Score `rating_score = poi.rating / 5.0 * 2`. -/
def rating_score (rating : ℚ) : ℚ :=
  rating / 5 * 2

/-- Search `RouteBuilder.search`: geofilter, token/synonym scoring with category
bonus, keep positive scores, sort by total score descending (stable). -/
noncomputable def search (syn : List (String × List String)) (pois : List POI)
    (query : String) (center : ℚ × ℚ) (radius_km : ℚ) : List POI :=
  let query_words := pySplit (pyLower query)
  let expanded_words := expand_query_words syn query_words
  let results : List (POI × ℝ × ℝ) := pois.filterMap (fun poi =>
    let dist := _distance center (poi.latitude, poi.longitude)
    if dist > (radius_km : ℝ) then none
    else
      let score := token_score expanded_words query_words poi + category_bonus query poi
      if score > 0 then
        some (poi, (score : ℝ) + distance_score dist radius_km + (rating_score poi.rating : ℝ), dist)
      else none)
  (results.mergeSort (fun a b => decide (b.2.1 ≤ a.2.1))).map (fun x => x.1)

/-- One iteration of the diversification loop in `create_route` (lines
111-119): the state is the per-category counter (`types`, default 0) and the
accepted list (`final_selected`). -/
def diversify_step (max_points : ℕ) (st : (String → ℕ) × List POI) (poi : POI) :
    (String → ℕ) × List POI :=
  let types := st.1
  let final_selected := st.2
  if types poi.poi_type < max_points / 2 then
    (fun t => if t = poi.poi_type then types t + 1 else types t, final_selected ++ [poi])
  else if final_selected.length < max_points then
    (types, final_selected ++ [poi])
  else
    (types, final_selected)

/-- Python's `max(pois, key=lambda p: p.rating)`: first element with
maximal rating. -/
def maxByRating (p : POI) (l : List POI) : POI :=
  l.foldl (fun acc q => if acc.rating < q.rating then q else acc) p

/-- Python's `min(unvisited, key=...distance to last...)`: first element at
minimal distance from `last`. -/
noncomputable def minByDist (last : POI) (p : POI) (l : List POI) : POI :=
  l.foldl (fun acc q =>
    if _distance (last.latitude, last.longitude) (q.latitude, q.longitude)
       < _distance (last.latitude, last.longitude) (acc.latitude, acc.longitude)
    then q else acc) p

/-- Fuel-indexed form of the `while unvisited:` loop of `_optimize_order`:
each pass appends the unvisited point nearest to the last appended one and
removes it (`unvisited.remove` is `List.erase`, first structurally equal
element); each pass shrinks `unvisited` by one, so `unvisited.length` fuel
runs the loop to completion. -/
noncomputable def greedyAux : ℕ → POI → List POI → List POI
  | 0, _, _ => []
  | _ + 1, _, [] => []
  | n + 1, last, u :: us =>
    let nxt := minByDist last u us
    nxt :: greedyAux n nxt ((u :: us).erase nxt)

/-- The `while unvisited:` loop of `_optimize_order`. -/
noncomputable def greedy (last : POI) (unvisited : List POI) : List POI :=
  greedyAux unvisited.length last unvisited

/-- Ordering `RouteBuilder._optimize_order`: lists of length at most 2 are returned
unchanged; otherwise start from the highest-rated point, drop every point
sharing its id, and visit greedily. -/
noncomputable def _optimize_order (pois : List POI) : List POI :=
  if pois.length ≤ 2 then pois
  else
    match pois with
    | [] => []
    | p :: rest =>
      let start := maxByRating p rest
      start :: greedy start ((p :: rest).filter (fun q => q.id ≠ start.id))

/-- Composition `RouteBuilder.create_route`: truncate to `max_points`, diversify when
more than 2 were selected, optimize the order when more than 1 remains. -/
noncomputable def create_route (pois : List POI) (max_points : ℕ) : List POI :=
  if pois.isEmpty then []
  else
    let selected := pois.take max_points
    let selected :=
      if 2 < selected.length then
        ((selected.foldl (diversify_step max_points) (fun _ => 0, [])).2).take max_points
      else selected
    if 1 < selected.length then _optimize_order selected else selected

/-- The record returned by `calculate_stats` for a non-empty route. -/
structure RouteStats where
  points : ℕ
  distance_km : ℝ
  total_hours : ℝ
  visit_hours : ℝ
  travel_hours : ℝ
  types : List String

/-- Python's `round(x, 1)` (the inputs of this development are never exact
ties, where Python's ties-to-even and `round`'s ties-up could differ). -/
noncomputable def round1 (x : ℝ) : ℝ :=
  ((round (x * 10) : ℤ) : ℝ) / 10

/-- Statistics `RouteBuilder.calculate_stats`: `none` models the empty dict returned
for an empty route; `list(set(...))` of the categories is `List.dedup`. -/
noncomputable def calculate_stats (route : List POI) : Option RouteStats :=
  if route.isEmpty then none
  else
    let visit_time : ℤ := (route.map POI.visit_time).sum
    let pairs := route.zip route.tail
    let distance : ℝ := (pairs.map (fun pr =>
      _distance (pr.1.latitude, pr.1.longitude) (pr.2.latitude, pr.2.longitude))).sum
    let travel_time : ℝ := (pairs.map (fun pr =>
      _distance (pr.1.latitude, pr.1.longitude) (pr.2.latitude, pr.2.longitude) / 40 * 60)).sum
    let total_time : ℝ := travel_time + (visit_time : ℝ)
    some { points := route.length
           distance_km := round1 distance
           total_hours := round1 (total_time / 60)
           visit_hours := round1 ((visit_time : ℝ) / 60)
           travel_hours := round1 (travel_time / 60)
           types := (route.map POI.poi_type).dedup }

/-- Concrete POIs, catalogs and records used to instantiate the claim
theorems below on the program. -/
def poiKremlin : POI := ⟨1, "храм", 55, 37, "church", [], 9/2, 60⟩

def poiBonusOnly : POI := ⟨8, "A", 0, 0, "church", [], 5, 60⟩

def synOverlap : List (String × List String) :=
  [("k1", ["a", "b"]), ("k2", ["b", "c"])]

def poiLowRated : POI := ⟨21, "a", 0, 0, "church", [], 1, 60⟩

def poiHighRated : POI := ⟨22, "b", 1, 1, "monastery", [], 2, 60⟩

def threeChurchesFiveMonasteries : List POI :=
  [⟨41, "c1", 0, 0, "church", [], 5, 60⟩,
   ⟨42, "c2", 0, 1, "church", [], 5, 60⟩,
   ⟨43, "c3", 1, 0, "church", [], 5, 60⟩,
   ⟨44, "m1", 1, 1, "monastery", [], 5, 60⟩,
   ⟨45, "m2", 2, 0, "monastery", [], 5, 60⟩,
   ⟨46, "m3", 2, 1, "monastery", [], 5, 60⟩,
   ⟨47, "m4", 2, 2, "monastery", [], 5, 60⟩,
   ⟨48, "m5", 3, 0, "monastery", [], 5, 60⟩]

def poiStatA : POI := ⟨31, "a", 0, 0, "church", [], 5, 1⟩

def poiStatB : POI := ⟨32, "b", 4/333, 0, "church", [], 5, 1⟩

noncomputable def statsAB : RouteStats := ⟨2, 13/10, 1/10, 0, 0, ["church"]⟩

/-! Helper lemmas -/

/-- A left fold whose step always returns one of its two arguments picks an
element of the initial value together with the list. -/
theorem foldl_choice_mem (f : POI → POI → POI)
    (hf : ∀ a b, f a b = a ∨ f a b = b) :
    ∀ (l : List POI) (p : POI), l.foldl f p ∈ p :: l := by
  intro l
  induction l with
  | nil => intro p; simp
  | cons q t ih =>
    intro p
    have h := ih (f p q)
    rcases hf p q with h1 | h1 <;> rw [List.foldl_cons] <;>
      rcases List.mem_cons.mp h with h2 | h2 <;> simp [h1] at h2 ⊢ <;> simp [h2]

theorem minByDist_mem (last : POI) (p : POI) (l : List POI) :
    minByDist last p l ∈ p :: l := by
  apply foldl_choice_mem
  intro a b
  dsimp only
  split <;> simp

theorem maxByRating_mem (p : POI) (l : List POI) :
    maxByRating p l ∈ p :: l := by
  apply foldl_choice_mem
  intro a b
  split <;> simp

theorem greedyAux_perm : ∀ (n : ℕ) (l : List POI) (last : POI), l.length = n →
    (greedyAux n last l).Perm l := by
  intro n
  induction n with
  | zero =>
    intro l last h
    rw [List.length_eq_zero.mp h]
    exact List.Perm.refl _
  | succ n ih =>
    intro l last h
    match l with
    | u :: us =>
      rw [greedyAux]
      have hmem := minByDist_mem last u us
      have hlen : ((u :: us).erase (minByDist last u us)).length = n := by
        rw [List.length_erase_of_mem hmem]
        simp only [List.length_cons] at h ⊢
        omega
      exact ((ih _ _ hlen).cons _).trans (List.perm_cons_erase hmem).symm

theorem greedy_perm (l : List POI) (last : POI) : (greedy last l).Perm l :=
  greedyAux_perm l.length l last rfl

theorem filter_ne_id_eq_erase :
    ∀ (pois : List POI) (s : POI), (pois.map POI.id).Nodup → s ∈ pois →
      pois.filter (fun p => p.id ≠ s.id) = pois.erase s := by
  intro pois
  induction pois with
  | nil => intro s _ hs; simp at hs
  | cons a rest ih =>
    intro s hnd hs
    rw [List.map_cons, List.nodup_cons] at hnd
    by_cases has : a = s
    · subst has
      rw [List.filter_cons, if_neg (by simp), List.erase_cons_head]
      apply List.filter_eq_self.mpr
      intro p hp
      simp only [ne_eq, decide_eq_true_eq]
      intro hpe
      exact hnd.1 (hpe ▸ List.mem_map_of_mem POI.id hp)
    · have hsrest : s ∈ rest := by
        rcases List.mem_cons.mp hs with h | h
        · exact absurd h.symm has
        · exact h
      have haid : a.id ≠ s.id := by
        intro he
        exact hnd.1 (he ▸ List.mem_map_of_mem POI.id hsrest)
      rw [List.filter_cons, if_pos (by simpa using haid),
        List.erase_cons_tail (by simp [has]), ih s hnd.2 hsrest]

theorem optimize_order_perm (pois : List POI)
    (hnd : (pois.map POI.id).Nodup) : (_optimize_order pois).Perm pois := by
  unfold _optimize_order
  split
  · exact List.Perm.refl pois
  · match pois with
    | [] => exact List.Perm.refl []
    | p :: rest =>
      have hstart := maxByRating_mem p rest
      show ((maxByRating p rest) :: greedy (maxByRating p rest)
        ((p :: rest).filter (fun q => q.id ≠ (maxByRating p rest).id))).Perm (p :: rest)
      rw [filter_ne_id_eq_erase _ _ hnd hstart]
      have hg := greedy_perm ((p :: rest).erase (maxByRating p rest)) (maxByRating p rest)
      exact (hg.cons _).trans (List.perm_cons_erase hstart).symm

/-- As long as fewer than `max_points` candidates have been accepted, every
candidate is accepted (by the category branch or by the overflow-fill
branch), so on a working set of at most `max_points` candidates the
diversification loop accepts everything. -/
theorem diversify_foldl (mp : ℕ) : ∀ (l : List POI) (st : (String → ℕ) × List POI),
    st.2.length + l.length ≤ mp →
    (l.foldl (diversify_step mp) st).2 = st.2 ++ l := by
  intro l
  induction l with
  | nil => intro st h; simp
  | cons a t ih =>
    intro st h
    have hstep : (diversify_step mp st a).2 = st.2 ++ [a] := by
      unfold diversify_step
      dsimp only
      split
      · rfl
      · rw [if_pos (by simp at h; omega)]
    rw [List.foldl_cons, ih (diversify_step mp st a)
      (by rw [hstep]; simp at h ⊢; omega), hstep]
    simp

/-- Reduction: `create_route` amounts to ordering (or returning) the top `max_points`
candidates: the diversification pass never excludes anything. -/
theorem create_route_eq (pois : List POI) (mp : ℕ) :
    create_route pois mp =
      if 1 < (pois.take mp).length then _optimize_order (pois.take mp)
      else pois.take mp := by
  have hlen : (pois.take mp).length ≤ mp := by
    rw [List.length_take]; exact min_le_left _ _
  have hdiv : (((pois.take mp).foldl (diversify_step mp) (fun _ => 0, [])).2).take mp
      = pois.take mp := by
    rw [diversify_foldl mp (pois.take mp) (fun _ => 0, []) (by simp [hlen])]
    simp [List.take_take]
  unfold create_route
  split
  · rename_i he; rw [List.isEmpty_iff.mp he]; simp
  · simp only [hdiv, ite_self]

theorem create_route_perm_take (pois : List POI) (mp : ℕ)
    (hnd : (pois.map POI.id).Nodup) :
    (create_route pois mp).Perm (pois.take mp) := by
  rw [create_route_eq]
  split
  · apply optimize_order_perm
    exact List.Nodup.sublist ((List.take_sublist _ _).map POI.id) hnd
  · exact List.Perm.refl _

/-- Membership in the output of `search`, unfolded: the POI is in the
catalog, passes the geofilter, and its token score plus category bonus is
strictly positive (the total with distance and rating scores only orders
the output). -/
theorem search_mem_iff {syn : List (String × List String)} {pois : List POI}
    {query : String} {center : ℚ × ℚ} {radius_km : ℚ} {poi : POI} :
    poi ∈ search syn pois query center radius_km ↔
      poi ∈ pois ∧
      ¬ ((radius_km : ℝ) < _distance center (poi.latitude, poi.longitude)) ∧
      0 < token_score (expand_query_words syn (pySplit (pyLower query)))
            (pySplit (pyLower query)) poi + category_bonus query poi := by
  unfold search
  simp only [List.mem_map, (List.mergeSort_perm _ _).mem_iff, List.mem_filterMap]
  constructor
  · rintro ⟨x, ⟨a, ha, hfa⟩, hx1⟩
    by_cases hd : (radius_km : ℝ) < _distance center (a.latitude, a.longitude)
    · rw [if_pos hd] at hfa
      exact Option.noConfusion hfa
    · rw [if_neg hd] at hfa
      by_cases hs : 0 < token_score (expand_query_words syn (pySplit (pyLower query)))
          (pySplit (pyLower query)) a + category_bonus query a
      · rw [if_pos hs] at hfa
        have hx := Option.some.inj hfa
        rw [← hx] at hx1
        dsimp only at hx1
        subst hx1
        exact ⟨ha, hd, hs⟩
      · rw [if_neg hs] at hfa
        exact Option.noConfusion hfa
  · rintro ⟨hmem, hd, hs⟩
    refine ⟨(poi,
      ((token_score (expand_query_words syn (pySplit (pyLower query)))
          (pySplit (pyLower query)) poi + category_bonus query poi : ℤ) : ℝ)
        + distance_score (_distance center (poi.latitude, poi.longitude)) radius_km
        + (rating_score poi.rating : ℝ),
      _distance center (poi.latitude, poi.longitude)), ⟨poi, hmem, ?_⟩, rfl⟩
    rw [if_neg hd, if_pos hs]

theorem _distance_nonneg (c1 c2 : ℚ × ℚ) : 0 ≤ _distance c1 c2 :=
  mul_nonneg (Real.sqrt_nonneg _) (by norm_num)

theorem _distance_self (c : ℚ × ℚ) : _distance c c = 0 := by
  simp [_distance]

/-- A negative radius geofilters every POI out, so `search` silently
returns the empty list. -/
theorem search_eq_nil_of_radius_neg (syn : List (String × List String))
    (pois : List POI) (query : String) (center : ℚ × ℚ) {radius_km : ℚ}
    (h : radius_km < 0) : search syn pois query center radius_km = [] := by
  rw [List.eq_nil_iff_forall_not_mem]
  intro p hp
  rcases search_mem_iff.mp hp with ⟨_, hd, _⟩
  apply hd
  calc (radius_km : ℝ) < 0 := by exact_mod_cast h
    _ ≤ _distance center (p.latitude, p.longitude) := _distance_nonneg _ _

theorem optimize_order_head (p : POI) (rest : List POI)
    (h : 2 < (p :: rest).length) :
    (_optimize_order (p :: rest)).head? = some (maxByRating p rest) := by
  unfold _optimize_order
  rw [if_neg (by simp only [List.length_cons] at h ⊢; omega)]
  rfl

/-! Claim theorems and their witnesses and counterexamples -/

/-- C7: every POI returned by `search` has planar distance from the center
at most the radius. -/
theorem C7_search_within_radius {syn : List (String × List String)}
    {pois : List POI} {query : String} {center : ℚ × ℚ} {radius_km : ℚ}
    {poi : POI} (h : poi ∈ search syn pois query center radius_km) :
    _distance center (poi.latitude, poi.longitude) ≤ (radius_km : ℝ) :=
  not_lt.mp (search_mem_iff.mp h).2.1

theorem C7_search_within_radius_witness :
    _distance (55, 37) (poiKremlin.latitude, poiKremlin.longitude) ≤ ((50 : ℚ) : ℝ) :=
  @C7_search_within_radius synonyms [poiKremlin] "храм" (55, 37) 50 poiKremlin
    (search_mem_iff.mpr ⟨List.mem_singleton.mpr rfl,
      by rw [show (poiKremlin.latitude, poiKremlin.longitude) = ((55 : ℚ), (37 : ℚ)) from rfl,
        _distance_self]; norm_num, by decide⟩)

/-- C10: the distance primitive is symmetric, non-negative, and zero on
equal coordinates. -/
theorem C10_distance_symm_nonneg_self (a b : ℚ × ℚ) :
    _distance a b = _distance b a ∧ 0 ≤ _distance a b ∧ _distance a a = 0 := by
  refine ⟨?_, _distance_nonneg a b, _distance_self a⟩
  unfold _distance
  rw [show ((a.1 : ℝ) - (b.1 : ℝ))^2 = ((b.1 : ℝ) - (a.1 : ℝ))^2 by ring,
    show ((a.2 : ℝ) - (b.2 : ℝ))^2 = ((b.2 : ℝ) - (a.2 : ℝ))^2 by ring]

/-- C3: calling `search` with a negative radius does not fail fast: it
silently returns the empty list (evaluated here on the program's own
catalog and a query that otherwise matches several POIs). -/
theorem C3_negative_radius_silently_empty :
    search synonyms create_sample_data "храм" (557522/10000, 376156/10000) (-5) = [] :=
  search_eq_nil_of_radius_neg _ _ _ _ (by norm_num)

/-- C8: empty inputs propagate as empty outputs without faulting: `search`
over an empty catalog, `create_route` of no candidates, and
`calculate_stats` of an empty route. -/
theorem C8_empty_propagation (syn : List (String × List String))
    (query : String) (center : ℚ × ℚ) (radius_km : ℚ) (max_points : ℕ) :
    search syn [] query center radius_km = [] ∧
    create_route [] max_points = [] ∧
    calculate_stats [] = none := by
  refine ⟨?_, ?_, ?_⟩
  · rw [List.eq_nil_iff_forall_not_mem]
    intro p hp
    exact absurd (search_mem_iff.mp hp).1 (List.not_mem_nil p)
  · rw [create_route_eq]; simp
  · rw [calculate_stats]; simp

/-- C1 (as stated, refuted): a POI whose token score is zero can still be
returned by `search`, because the inclusion threshold `score > 0` also
counts the category bonus: a church-category POI matches the bonus check
when the raw query contains "церковь" even though no expanded query token
occurs in its searchable text. -/
theorem C1_counterexample :
    poiBonusOnly ∈ search synonyms [poiBonusOnly] "церковьx" (0, 0) 50 ∧
    token_score (expand_query_words synonyms (pySplit (pyLower "церковьx")))
      (pySplit (pyLower "церковьx")) poiBonusOnly = 0 := by
  constructor
  · exact search_mem_iff.mpr ⟨List.mem_singleton.mpr rfl,
      by rw [show (poiBonusOnly.latitude, poiBonusOnly.longitude) = ((0 : ℚ), (0 : ℚ)) from rfl,
        _distance_self]; norm_num, by decide⟩
  · decide

/-- C1 (amended): a POI appears in the output of `search` only if its token
score plus its category bonus is strictly positive; the distance and rating
scores alone never qualify a candidate. -/
theorem C1_inclusion_needs_token_or_bonus {syn : List (String × List String)}
    {pois : List POI} {query : String} {center : ℚ × ℚ} {radius_km : ℚ}
    {poi : POI} (h : poi ∈ search syn pois query center radius_km) :
    0 < token_score (expand_query_words syn (pySplit (pyLower query)))
          (pySplit (pyLower query)) poi + category_bonus query poi :=
  (search_mem_iff.mp h).2.2

theorem C1_inclusion_needs_token_or_bonus_witness :
    0 < token_score (expand_query_words synonyms (pySplit (pyLower "храм")))
          (pySplit (pyLower "храм")) poiKremlin + category_bonus "храм" poiKremlin :=
  @C1_inclusion_needs_token_or_bonus synonyms [poiKremlin] "храм" (55, 37) 50 poiKremlin
    (search_mem_iff.mpr ⟨List.mem_singleton.mpr rfl,
      by rw [show (poiKremlin.latitude, poiKremlin.longitude) = ((55 : ℚ), (37 : ℚ)) from rfl,
        _distance_self]; norm_num, by decide⟩)

/-- Membership in `expand_one`. -/
theorem mem_expand_one {syn : List (String × List String)} {word x : String} :
    x ∈ expand_one syn word ↔
      x = word ∨ ∃ kv ∈ syn, word ∈ kv.2 ∧ x ∈ kv.2 ∧ x ≠ word := by
  unfold expand_one
  simp only [List.mem_cons, List.mem_flatten, List.mem_map]
  constructor
  · rintro (h | ⟨l, ⟨kv, hkv, hl⟩, hxl⟩)
    · exact Or.inl h
    · by_cases hw : word ∈ kv.2
      · rw [if_pos hw] at hl
        rw [← hl] at hxl
        rcases List.mem_filter.mp hxl with ⟨hx2, hxw⟩
        exact Or.inr ⟨kv, hkv, hw, hx2, by simpa using hxw⟩
      · rw [if_neg hw] at hl
        rw [← hl] at hxl
        exact absurd hxl (List.not_mem_nil x)
  · rintro (h | ⟨kv, hkv, hw, hx2, hxw⟩)
    · exact Or.inl h
    · refine Or.inr ⟨kv.2.filter (fun s => s ≠ word), ⟨kv, hkv, by rw [if_pos hw]⟩, ?_⟩
      exact List.mem_filter.mpr ⟨hx2, by simpa using hxw⟩

/-- Membership in the synonym expansion: the original tokens together with
every group containing one of them. -/
theorem mem_expand {syn : List (String × List String)} {ws : List String}
    {x : String} :
    x ∈ expand_query_words syn ws ↔
      x ∈ ws ∨ ∃ kv ∈ syn, x ∈ kv.2 ∧ ∃ w ∈ ws, w ∈ kv.2 := by
  unfold expand_query_words
  rw [List.mem_dedup, List.mem_flatten]
  constructor
  · rintro ⟨l, hl, hxl⟩
    rcases List.mem_map.mp hl with ⟨w, hw, rfl⟩
    rcases mem_expand_one.mp hxl with rfl | ⟨kv, hkv, hwkv, hxkv, _⟩
    · exact Or.inl hw
    · exact Or.inr ⟨kv, hkv, hxkv, w, hw, hwkv⟩
  · rintro (hx | ⟨kv, hkv, hxkv, w, hw, hwkv⟩)
    · exact ⟨expand_one syn x, List.mem_map.mpr ⟨x, hx, rfl⟩, mem_expand_one.mpr (Or.inl rfl)⟩
    · by_cases hxw : x = w
      · exact ⟨expand_one syn x, List.mem_map.mpr ⟨x, hxw ▸ hw, rfl⟩,
          mem_expand_one.mpr (Or.inl rfl)⟩
      · exact ⟨expand_one syn w, List.mem_map.mpr ⟨w, hw, rfl⟩,
          mem_expand_one.mpr (Or.inr ⟨kv, hkv, hwkv, hxkv, hxw⟩)⟩

/-- C4 (as stated, refuted): with a synonym dictionary containing two
overlapping groups (which §3 allows: "a token may appear in multiple
groups"), a second expansion pulls in tokens the first did not. -/
theorem C4_counterexample :
    (expand_query_words synOverlap (expand_query_words synOverlap ["a"])).toFinset ≠
      (expand_query_words synOverlap ["a"]).toFinset := by
  decide

/-- C4 (amended): for a synonym dictionary in which any two groups sharing
a token are equal — as in the program's dictionary, whose groups are
pairwise disjoint — expansion is idempotent up to set equality. -/
theorem C4_expansion_idempotent_of_disjoint (syn : List (String × List String))
    (hdisj : ∀ kv1 ∈ syn, ∀ kv2 ∈ syn, ∀ t ∈ kv1.2, t ∈ kv2.2 → kv1.2 = kv2.2)
    (ws : List String) :
    (expand_query_words syn (expand_query_words syn ws)).toFinset =
      (expand_query_words syn ws).toFinset := by
  ext x
  simp only [List.mem_toFinset]
  constructor
  · intro hx
    rcases mem_expand.mp hx with hx' | ⟨kv, hkv, hxkv, w, hw, hwkv⟩
    · exact hx'
    · rcases mem_expand.mp hw with hw' | ⟨kv', hkv', hwkv', u, hu, hukv'⟩
      · exact mem_expand.mpr (Or.inr ⟨kv, hkv, hxkv, w, hw', hwkv⟩)
      · have heq := hdisj kv hkv kv' hkv' w hwkv hwkv'
        exact mem_expand.mpr (Or.inr ⟨kv', hkv', heq ▸ hxkv, u, hu, hukv'⟩)
  · intro hx
    exact mem_expand.mpr (Or.inl hx)

theorem C4_expansion_idempotent_of_disjoint_witness :
    (expand_query_words synonyms (expand_query_words synonyms ["храм"])).toFinset =
      (expand_query_words synonyms ["храм"]).toFinset :=
  C4_expansion_idempotent_of_disjoint synonyms (by decide) ["храм"]

/-- C6: on candidates with pairwise distinct identifiers the greedy
ordering returns a permutation of its input, and no point occurs twice. -/
theorem C6_greedy_order_permutation {pois : List POI}
    (h : (pois.map POI.id).Nodup) :
    (_optimize_order pois).Perm pois ∧ (_optimize_order pois).Nodup := by
  have hperm := optimize_order_perm pois h
  exact ⟨hperm, hperm.nodup_iff.mpr (h.of_map)⟩

theorem C6_greedy_order_permutation_witness :
    (_optimize_order (create_sample_data.take 3)).Perm (create_sample_data.take 3) ∧
    (_optimize_order (create_sample_data.take 3)).Nodup :=
  C6_greedy_order_permutation (by decide)

/-- C5 (as stated, refuted): with exactly two candidates reaching the
ordering step, `_optimize_order` returns them unchanged (`len(pois) <= 2`
short-circuit), so the route can start at the lower-rated point. -/
theorem C5_counterexample :
    create_route [poiLowRated, poiHighRated] 4 = [poiLowRated, poiHighRated] ∧
    poiLowRated.rating < poiHighRated.rating := by
  constructor
  · rfl
  · show (1 : ℚ) < 2
    norm_num

/-- C5 (amended): when more than two points reach the ordering step, the
returned route starts at the candidate with the highest rating (first such,
ties broken by original order, as Python's `max`). -/
theorem C5_highest_rating_first (p : POI) (rest : List POI)
    (h : 2 < (p :: rest).length) :
    (_optimize_order (p :: rest)).head? = some (maxByRating p rest) :=
  optimize_order_head p rest h

theorem C5_highest_rating_first_witness :
    (_optimize_order (poiKremlin :: [poiLowRated, poiHighRated])).head? =
      some (maxByRating poiKremlin [poiLowRated, poiHighRated]) :=
  C5_highest_rating_first poiKremlin [poiLowRated, poiHighRated] (by decide)

/-- C2 (as stated, refuted): with three churches ranked first and five
monasteries behind them, the route of `max_points = 4` contains the three
churches (more than `max(4 // 2, 1) = 2`), although five candidates of
another category existed among the input candidates: the top-`max_points`
truncation happens before diversification ever looks at them. -/
theorem C2_counterexample :
    2 < ((create_route threeChurchesFiveMonasteries 4).map POI.poi_type).count "church" ∧
    4 ≤ (threeChurchesFiveMonasteries.filter (fun p => p.poi_type ≠ "church")).length := by
  constructor
  · have hperm := create_route_perm_take threeChurchesFiveMonasteries 4 (by decide)
    rw [(hperm.map POI.poi_type).count_eq]
    decide
  · decide

/-- C2 (amended): for candidates with pairwise distinct identifiers (the
catalog invariant of §3), the route has length at most `max_points` and
contains each category exactly as often as the first `max_points`
candidates do — the diversification pass never excludes a candidate,
because selection to `max_points` happens before it and the overflow-fill
branch then accepts everything. -/
theorem C2_route_bounded_and_counts_from_top (pois : List POI) (mp : ℕ)
    (hnd : (pois.map POI.id).Nodup) :
    (create_route pois mp).length ≤ mp ∧
    ∀ t, ((create_route pois mp).map POI.poi_type).count t =
      ((pois.take mp).map POI.poi_type).count t := by
  have hperm := create_route_perm_take pois mp hnd
  refine ⟨?_, fun t => (hperm.map POI.poi_type).count_eq t⟩
  rw [hperm.length_eq, List.length_take]
  exact min_le_left _ _

theorem C2_route_bounded_and_counts_from_top_witness :
    (create_route create_sample_data 4).length ≤ 4 ∧
    ((create_route create_sample_data 4).map POI.poi_type).count "church" =
      ((create_sample_data.take 4).map POI.poi_type).count "church" :=
  ⟨(C2_route_bounded_and_counts_from_top create_sample_data 4 (by decide)).1,
   (C2_route_bounded_and_counts_from_top create_sample_data 4 (by decide)).2 "church"⟩

/-- One rounding to a tenth moves a value by at most `1/20`. -/
theorem abs_round1_sub (x : ℝ) : |round1 x - x| ≤ 1/20 := by
  unfold round1
  rw [show ((round (x * 10) : ℤ) : ℝ)/10 - x = -((x * 10 - ((round (x * 10) : ℤ) : ℝ))/10)
    by ring, abs_neg, abs_div, abs_of_nonneg (by norm_num : (0:ℝ) ≤ 10)]
  have h := abs_sub_round (x * 10)
  linarith

/-- Three independent roundings to a tenth can tear an exact additive
identity apart by at most `3/20`. -/
theorem round1_add_bound (a b : ℝ) :
    |round1 a + round1 b - round1 (a + b)| ≤ 3/20 := by
  have ha := abs_le.mp (abs_round1_sub a)
  have hb := abs_le.mp (abs_round1_sub b)
  have hab := abs_le.mp (abs_round1_sub (a + b))
  rw [show round1 a + round1 b - round1 (a + b) =
    (round1 a - a) + (round1 b - b) - (round1 (a + b) - (a + b)) by ring, abs_le]
  constructor <;> linarith [ha.1, ha.2, hb.1, hb.2, hab.1, hab.2]

theorem dist_statAB : _distance (poiStatA.latitude, poiStatA.longitude)
    (poiStatB.latitude, poiStatB.longitude) = 4/3 := by
  unfold _distance
  dsimp only
  have h1 : ((poiStatA.latitude : ℝ) - (poiStatB.latitude : ℝ))^2 +
      ((poiStatA.longitude : ℝ) - (poiStatB.longitude : ℝ))^2 = ((4:ℝ)/333)^2 := by
    show (((0:ℚ) : ℝ) - ((4/333:ℚ) : ℝ))^2 + (((0:ℚ) : ℝ) - ((0:ℚ) : ℝ))^2 = ((4:ℝ)/333)^2
    push_cast
    ring
  rw [h1, Real.sqrt_sq (by norm_num)]
  norm_num

/-- The route of the two one-minute-visit POIs above evaluates to a stats
record with `visit_hours = travel_hours = 0` but `total_hours = 0.1`: the
exact times are 2 min visiting, 2 min travelling (distance 4/3 km at
40 km/h), 4 min total, and the three hour fields round independently. -/
theorem calc_stats_statAB : calculate_stats [poiStatA, poiStatB] = some statsAB := by
  unfold calculate_stats
  rw [if_neg (by decide)]
  simp only [List.zip, List.zipWith, List.tail, List.map, List.sum_cons, List.sum_nil,
    List.length, dist_statAB]
  unfold statsAB
  refine congrArg some ?_
  refine RouteStats.mk.injEq .. ▸ ?_
  constructor
  · rfl
  constructor
  · norm_num [round1, round_eq]
  constructor
  · norm_num [round1, round_eq, poiStatA, poiStatB]
  constructor
  · norm_num [round1, round_eq, poiStatA, poiStatB]
  constructor
  · norm_num [round1, round_eq, poiStatA, poiStatB]
  · decide

/-- C9 (as stated, refuted): on the two-POI route above,
`visit_hours + travel_hours` is `0` while `total_hours` is `0.1`, a
discrepancy of `0.1 > 0.05`. -/
theorem C9_counterexample :
    calculate_stats [poiStatA, poiStatB] = some statsAB ∧
    ¬ (|statsAB.visit_hours + statsAB.travel_hours - statsAB.total_hours| ≤ 1/20) := by
  refine ⟨calc_stats_statAB, ?_⟩
  show ¬ (|(0:ℝ) + 0 - 1/10| ≤ 1/20)
  rw [show (0:ℝ) + 0 - 1/10 = -(1/10) by ring, abs_neg, abs_of_nonneg (by norm_num)]
  norm_num

/-- C9 (amended): for every non-empty route the stats record satisfies
`visit_hours + travel_hours = total_hours` within `±0.15` hours — the three
hour fields are rounded independently, so up to three rounding errors of
`±0.05` accumulate. -/
theorem C9_hours_within_three_roundings (route : List POI) (s : RouteStats)
    (h : calculate_stats route = some s) :
    |s.visit_hours + s.travel_hours - s.total_hours| ≤ 3/20 := by
  unfold calculate_stats at h
  split at h
  · exact Option.noConfusion h
  · rw [Option.some.injEq] at h
    subst h
    dsimp only
    rw [show (((route.zip route.tail).map (fun pr =>
          _distance (pr.1.latitude, pr.1.longitude) (pr.2.latitude, pr.2.longitude) / 40 * 60)).sum
          + (((route.map POI.visit_time).sum : ℤ) : ℝ)) / 60 =
        (((route.map POI.visit_time).sum : ℤ) : ℝ) / 60 +
        ((route.zip route.tail).map (fun pr =>
          _distance (pr.1.latitude, pr.1.longitude) (pr.2.latitude, pr.2.longitude) / 40 * 60)).sum / 60
      from by ring]
    exact round1_add_bound _ _

theorem C9_hours_within_three_roundings_witness :
    |statsAB.visit_hours + statsAB.travel_hours - statsAB.total_hours| ≤ 3/20 :=
  C9_hours_within_three_roundings [poiStatA, poiStatB] statsAB calc_stats_statAB

end RouteBuilder
